import Mathlib

/-!
Shallow embedding of `oteltest/__init__.py` (the `Request` dataclass and the
`Telemetry` accumulator) together with theorems about its query operations.

Python values flowing through the telemetry model (decoded protobuf messages
rendered as nested dicts/lists, headers, elapsed-millisecond integers) are
embedded as the inductive `PyVal`.  Python operations that can raise
(`d[key]` on a dict, `len`, iteration, attribute traversal) are embedded as
`Option`-valued functions, `none` standing for the raised exception
(KeyError / TypeError) propagating to the caller.
-/

namespace Otel

/-- A decoded Python value: strings, ints, lists and string-keyed dicts.
A dict is an association list of unique keys; lookup takes the first match. -/
inductive PyVal : Type where
  | str : String → PyVal
  | int : Int → PyVal
  | list : List PyVal → PyVal
  | dict : List (String × PyVal) → PyVal
deriving Repr

mutual

/-- Boolean equality on `PyVal` (structural). -/
def PyVal.beq : PyVal → PyVal → Bool
  | .str a, .str b => a == b
  | .int a, .int b => a == b
  | .list a, .list b => PyVal.beqList a b
  | .dict a, .dict b => PyVal.beqDict a b
  | _, _ => false

/-- Boolean equality on lists of `PyVal`. -/
def PyVal.beqList : List PyVal → List PyVal → Bool
  | [], [] => true
  | a :: as, b :: bs => PyVal.beq a b && PyVal.beqList as bs
  | _, _ => false

/-- Boolean equality on association lists of `PyVal`. -/
def PyVal.beqDict : List (String × PyVal) → List (String × PyVal) → Bool
  | [], [] => true
  | (k, v) :: as, (l, w) :: bs =>
      k == l && PyVal.beq v w && PyVal.beqDict as bs
  | _, _ => false

end

mutual

theorem PyVal.beq_iff : ∀ a b : PyVal, PyVal.beq a b = true ↔ a = b
  | .str a, .str b => by simp [PyVal.beq]
  | .int a, .int b => by simp [PyVal.beq]
  | .list a, .list b => by
      simpa [PyVal.beq] using PyVal.beqList_iff a b
  | .dict a, .dict b => by
      simpa [PyVal.beq] using PyVal.beqDict_iff a b
  | .str _, .int _ | .str _, .list _ | .str _, .dict _
  | .int _, .str _ | .int _, .list _ | .int _, .dict _
  | .list _, .str _ | .list _, .int _ | .list _, .dict _
  | .dict _, .str _ | .dict _, .int _ | .dict _, .list _ => by
      simp [PyVal.beq]

theorem PyVal.beqList_iff : ∀ a b : List PyVal, PyVal.beqList a b = true ↔ a = b
  | [], [] => by simp [PyVal.beqList]
  | a :: as, b :: bs => by
      simp [PyVal.beqList, PyVal.beq_iff a b, PyVal.beqList_iff as bs]
  | [], _ :: _ | _ :: _, [] => by simp [PyVal.beqList]

theorem PyVal.beqDict_iff :
    ∀ a b : List (String × PyVal), PyVal.beqDict a b = true ↔ a = b
  | [], [] => by simp [PyVal.beqDict]
  | (k, v) :: as, (l, w) :: bs => by
      simp [PyVal.beqDict, PyVal.beq_iff v w, PyVal.beqDict_iff as bs,
        and_assoc]
  | [], _ :: _ | _ :: _, [] => by simp [PyVal.beqDict]

end

instance : DecidableEq PyVal := fun a b =>
  decidable_of_iff _ (PyVal.beq_iff a b)

/-- Python `d[k]` with a string key: succeeds only on a dict that has the key
(KeyError / TypeError otherwise, embedded as `none`). -/
def PyVal.getItem : PyVal → String → Option PyVal
  | .dict kvs, k => kvs.lookup k
  | _, _ => none

/-- Python `len(v)`: defined for lists, strings and dicts (TypeError otherwise). -/
def PyVal.pyLen : PyVal → Option Nat
  | .list xs => some xs.length
  | .str s => some s.length
  | .dict kvs => some kvs.length
  | _ => none

/-- Python iteration `for x in v`: lists yield elements, strings yield
one-character strings, dicts yield their keys (TypeError otherwise). -/
def PyVal.pyIter : PyVal → Option (List PyVal)
  | .list xs => some xs
  | .str s => some (s.toList.map (fun c => PyVal.str (String.mk [c])))
  | .dict kvs => some (kvs.map (fun kv => PyVal.str kv.1))
  | _ => none

/-- The keys of a dict (`[]` for non-dicts), used to state shape properties. -/
def PyVal.topKeys : PyVal → List String
  | .dict kvs => kvs.map Prod.fst
  | _ => []

/-- Embed a string-to-string header mapping as a `PyVal` dict. -/
def headersVal (hs : List (String × String)) : PyVal :=
  PyVal.dict (hs.map (fun kv => (kv.1, PyVal.str kv.2)))

/-- The `Request` dataclass: one received message, its transport headers, and the
milliseconds elapsed since test start. Headers are a flat string-to-string
mapping (association list; `dict.get` takes the first match). -/
structure Request : Type where
  message : PyVal
  headers : List (String × String)
  test_elapsed_ms : Int
deriving DecidableEq, Repr

/-- Embeds `Request.get_header`: `self.headers.get(name)` — `none` when absent. -/
def Request.get_header (r : Request) (name : String) : Option String :=
  r.headers.lookup name

/-- Embeds `Request.to_dict`. -/
def Request.to_dict (r : Request) : PyVal :=
  PyVal.dict
    [ ("request", r.message),
      ("headers", headersVal r.headers),
      ("test_elapsed_ms", PyVal.int r.test_elapsed_ms) ]

/-- The `Telemetry` class: lists of log, metric and trace requests. -/
structure Telemetry : Type where
  log_requests : List Request
  metric_requests : List Request
  trace_requests : List Request
deriving DecidableEq, Repr

/-- Embeds `Telemetry.__init__`: each argument defaults to `None`; a falsy argument
(`None` or `[]`) is replaced by a fresh empty list. -/
def Telemetry.init (log_requests metric_requests trace_requests :
    Option (List Request)) : Telemetry :=
  { log_requests := log_requests.getD []
    metric_requests := metric_requests.getD []
    trace_requests := trace_requests.getD [] }

/-- Embeds `Telemetry.add_log`: append `Request(log, headers, test_elapsed_ms)`. -/
def Telemetry.add_log (t : Telemetry) (log : PyVal)
    (headers : List (String × String)) (test_elapsed_ms : Int) : Telemetry :=
  { t with log_requests := t.log_requests ++ [⟨log, headers, test_elapsed_ms⟩] }

/-- Embeds `Telemetry.add_metric`: append `Request(metric, headers, test_elapsed_ms)`. -/
def Telemetry.add_metric (t : Telemetry) (metric : PyVal)
    (headers : List (String × String)) (test_elapsed_ms : Int) : Telemetry :=
  { t with metric_requests :=
      t.metric_requests ++ [⟨metric, headers, test_elapsed_ms⟩] }

/-- Embeds `Telemetry.add_trace`: append `Request(trace, headers, test_elapsed_ms)`. -/
def Telemetry.add_trace (t : Telemetry) (trace : PyVal)
    (headers : List (String × String)) (test_elapsed_ms : Int) : Telemetry :=
  { t with trace_requests :=
      t.trace_requests ++ [⟨trace, headers, test_elapsed_ms⟩] }

/-- Embeds `Telemetry.get_trace_requests`. -/
def Telemetry.get_trace_requests (t : Telemetry) : List Request :=
  t.trace_requests

/-- Embeds `Telemetry.num_metrics`: the triple nested loop
`for req / for rm in req.message["resourceMetrics"] /
for sm in rm["scopeMetrics"]: out += len(sm["metrics"])`.
A raised KeyError/TypeError is `none`. -/
def Telemetry.num_metrics (t : Telemetry) : Option Nat :=
  t.metric_requests.foldlM (fun out req => do
    let rms ← (← req.message.getItem "resourceMetrics").pyIter
    rms.foldlM (fun out rm => do
      let sms ← (← rm.getItem "scopeMetrics").pyIter
      sms.foldlM (fun out sm => do
        let n ← (← sm.getItem "metrics").pyLen
        pure (out + n)) out) out) 0

/-- Embeds `Telemetry.metric_names`: same traversal, one level deeper, collecting
`metric["name"]` into a set. -/
def Telemetry.metric_names (t : Telemetry) : Option (Finset PyVal) :=
  t.metric_requests.foldlM (fun out req => do
    let rms ← (← req.message.getItem "resourceMetrics").pyIter
    rms.foldlM (fun out rm => do
      let sms ← (← rm.getItem "scopeMetrics").pyIter
      sms.foldlM (fun out sm => do
        let ms ← (← sm.getItem "metrics").pyIter
        ms.foldlM (fun out metric => do
          let n ← metric.getItem "name"
          pure (insert n out)) out) out) out) ∅

/-- Embeds `Telemetry.num_spans`: the metric traversal with
`resourceSpans / scopeSpans / spans`. -/
def Telemetry.num_spans (t : Telemetry) : Option Nat :=
  t.trace_requests.foldlM (fun out req => do
    let rss ← (← req.message.getItem "resourceSpans").pyIter
    rss.foldlM (fun out rs => do
      let sss ← (← rs.getItem "scopeSpans").pyIter
      sss.foldlM (fun out ss => do
        let n ← (← ss.getItem "spans").pyLen
        pure (out + n)) out) out) 0

/-- Embeds `Telemetry.has_trace_header`: `expected == req.get_header(key)` for some
trace request (the loop returns on the first match). -/
def Telemetry.has_trace_header (t : Telemetry) (key expected : String) : Bool :=
  t.trace_requests.any (fun req => some expected == req.get_header key)

/-- Embeds `Telemetry.to_dict`. -/
def Telemetry.to_dict (t : Telemetry) : PyVal :=
  PyVal.dict
    [ ("log_requests", PyVal.list (t.log_requests.map Request.to_dict)),
      ("metric_requests", PyVal.list (t.metric_requests.map Request.to_dict)),
      ("trace_requests", PyVal.list (t.trace_requests.map Request.to_dict)) ]

/-! ### Helper views of `PyVal` -/

/-- View a `PyVal` as a list (the structured form stores request lists). -/
def PyVal.asList : PyVal → Option (List PyVal)
  | .list xs => some xs
  | _ => none

/-- View a `PyVal` as an integer. -/
def PyVal.asInt : PyVal → Option Int
  | .int n => some n
  | _ => none

/-- View a `PyVal` dict whose values are all strings as a header mapping. -/
def PyVal.asHeaders : PyVal → Option (List (String × String))
  | .dict kvs => kvs.mapM (fun kv =>
      match kv.2 with
      | .str s => some (kv.1, s)
      | _ => none)
  | _ => none

/-- Modelled from the spec: the repository ships no deserializer, so this is
the reconstruction of a Record from its structured form
`{request: message, headers: headers, test_elapsed_ms: elapsedMillis}`
described by the round-trip property ("reconstructing Records from the
structured form"). -/
def Request.from_dict (v : PyVal) : Option Request := do
  let msg ← v.getItem "request"
  let hs ← (← v.getItem "headers").asHeaders
  let n ← (← v.getItem "test_elapsed_ms").asInt
  pure ⟨msg, hs, n⟩

/-- Modelled from the spec: reconstruction of a `TelemetryCollection` from its
structured form `{log_requests: [...], metric_requests: [...],
trace_requests: [...]}`, rebuilding each Record and passing the three
sequences to the constructor. -/
def Telemetry.from_dict (v : PyVal) : Option Telemetry := do
  let ls ← (← (← v.getItem "log_requests").asList).mapM Request.from_dict
  let ms ← (← (← v.getItem "metric_requests").asList).mapM Request.from_dict
  let ts ← (← (← v.getItem "trace_requests").asList).mapM Request.from_dict
  pure (Telemetry.init (some ls) (some ms) (some ts))

/-! ### Append operations as an event sequence

To state order preservation over an arbitrary interleaving of
`add_log` / `add_metric` / `add_trace` calls, the calls are reified as a
list of operations replayed against a collection. -/

/-- One append call with its arguments. -/
inductive SinkOp : Type where
  | log (msg : PyVal) (headers : List (String × String)) (ms : Int)
  | metric (msg : PyVal) (headers : List (String × String)) (ms : Int)
  | trace (msg : PyVal) (headers : List (String × String)) (ms : Int)
deriving DecidableEq, Repr

/-- Replay one append call. -/
def Telemetry.applyOp : Telemetry → SinkOp → Telemetry
  | t, .log m h e => t.add_log m h e
  | t, .metric m h e => t.add_metric m h e
  | t, .trace m h e => t.add_trace m h e

/-- Replay a sequence of append calls in arrival order. -/
def Telemetry.applyOps (t : Telemetry) (ops : List SinkOp) : Telemetry :=
  ops.foldl Telemetry.applyOp t

/-- The record a log append would create (`none` for other signal kinds). -/
def SinkOp.logRecord : SinkOp → Option Request
  | .log m h e => some ⟨m, h, e⟩
  | _ => none

/-- The record a metric append would create (`none` for other signal kinds). -/
def SinkOp.metricRecord : SinkOp → Option Request
  | .metric m h e => some ⟨m, h, e⟩
  | _ => none

/-- The record a trace append would create (`none` for other signal kinds). -/
def SinkOp.traceRecord : SinkOp → Option Request
  | .trace m h e => some ⟨m, h, e⟩
  | _ => none

/-! ### Spec-side schema predicates and counts

The expected wire schema is three nested levels
`k1[].k2[].k3[]` (`resourceMetrics[].scopeMetrics[].metrics[]` for metrics,
`resourceSpans[].scopeSpans[].spans[]` for traces). -/

/-- Innermost level conforms: the dict has `k3` mapped to a list. -/
def smOk (k3 : String) (sm : PyVal) : Bool :=
  match sm.getItem k3 with
  | some (.list _) => true
  | _ => false

/-- Middle level conforms: `k2` maps to a list of conforming inner dicts. -/
def rmOk (k2 k3 : String) (rm : PyVal) : Bool :=
  match rm.getItem k2 with
  | some (.list sms) => sms.all (smOk k3)
  | _ => false

/-- A message conforms to the nested schema `k1[].k2[].k3[]`. -/
def msgConforms (k1 k2 k3 : String) (m : PyVal) : Bool :=
  match m.getItem k1 with
  | some (.list rms) => rms.all (rmOk k2 k3)
  | _ => false

/-- Number of leaf entries below one innermost dict. -/
def smLen (k3 : String) (sm : PyVal) : Nat :=
  match sm.getItem k3 with
  | some (.list ms) => ms.length
  | _ => 0

/-- Number of leaf entries below one middle-level dict. -/
def rmLen (k2 k3 : String) (rm : PyVal) : Nat :=
  match rm.getItem k2 with
  | some (.list sms) => (sms.map (smLen k3)).sum
  | _ => 0

/-- Number of leaf entries of a whole message: the sum of the lengths of the
innermost `k3` sequences reached by the `k1 -> k2 -> k3` traversal. -/
def msgLeafCount (k1 k2 k3 : String) (m : PyVal) : Nat :=
  match m.getItem k1 with
  | some (.list rms) => (rms.map (rmLen k2 k3)).sum
  | _ => 0

/-- Innermost level conforms and every leaf entry carries a `name` key. -/
def smOkNamed (k3 : String) (sm : PyVal) : Bool :=
  match sm.getItem k3 with
  | some (.list ms) => ms.all (fun metric => (metric.getItem "name").isSome)
  | _ => false

/-- Middle level conforms with named leaf entries. -/
def rmOkNamed (k2 k3 : String) (rm : PyVal) : Bool :=
  match rm.getItem k2 with
  | some (.list sms) => sms.all (smOkNamed k3)
  | _ => false

/-- A message conforms to the nested schema with named leaf entries. -/
def msgConformsNamed (k1 k2 k3 : String) (m : PyVal) : Bool :=
  match m.getItem k1 with
  | some (.list rms) => rms.all (rmOkNamed k2 k3)
  | _ => false

/-- Names of the leaf entries below one innermost dict, in traversal order. -/
def smNames (k3 : String) (sm : PyVal) : List PyVal :=
  match sm.getItem k3 with
  | some (.list ms) => ms.flatMap (fun metric => (metric.getItem "name").toList)
  | _ => []

/-- Names of the leaf entries below one middle-level dict. -/
def rmNames (k2 k3 : String) (rm : PyVal) : List PyVal :=
  match rm.getItem k2 with
  | some (.list sms) => sms.flatMap (smNames k3)
  | _ => []

/-- Names of every leaf entry of a message, in traversal order. -/
def msgNameList (k1 k2 k3 : String) (m : PyVal) : List PyVal :=
  match m.getItem k1 with
  | some (.list rms) => rms.flatMap (rmNames k2 k3)
  | _ => []

/-- The innermost level is a dict missing the key `k3`. -/
def smMissing (k3 : String) (sm : PyVal) : Bool :=
  match sm with
  | .dict kvs => (kvs.lookup k3).isNone
  | _ => false

/-- Descending below `rm`, the traversal reaches a dict missing its key:
either `rm` itself is a dict without `k2`, or some iterate of `rm[k2]` is a
dict without `k3`. -/
def rmMissing (k2 k3 : String) (rm : PyVal) : Bool :=
  match rm with
  | .dict kvs =>
    match kvs.lookup k2 with
    | none => true
    | some v =>
      match v.pyIter with
      | none => false
      | some sms => sms.any (smMissing k3)
  | _ => false

/-- The `k1 -> k2 -> k3` traversal of `m` reaches a dict that is missing the
key looked up at its level (the KeyError case of the query methods). -/
def msgMissingKey (k1 k2 k3 : String) (m : PyVal) : Bool :=
  match m with
  | .dict kvs =>
    match kvs.lookup k1 with
    | none => true
    | some v =>
      match v.pyIter with
      | none => false
      | some rms => rms.any (rmMissing k2 k3)
  | _ => false

/-! ### Per-message folds

`msgPointFold` (resp. `msgNamesFold`) is definitionally the loop body that
`num_metrics` / `num_spans` (resp. `metric_names`) runs for one request. -/

/-- Contribution of one request to `num_metrics` / `num_spans`. -/
def msgPointFold (k1 k2 k3 : String) (m : PyVal) (out : Nat) : Option Nat := do
  let rms ← (← m.getItem k1).pyIter
  rms.foldlM (fun out rm => do
    let sms ← (← rm.getItem k2).pyIter
    sms.foldlM (fun out sm => do
      let n ← (← sm.getItem k3).pyLen
      pure (out + n)) out) out

/-- Contribution of one request to `metric_names`. -/
def msgNamesFold (k1 k2 k3 : String) (m : PyVal) (out : Finset PyVal) :
    Option (Finset PyVal) := do
  let rms ← (← m.getItem k1).pyIter
  rms.foldlM (fun out rm => do
    let sms ← (← rm.getItem k2).pyIter
    sms.foldlM (fun out sm => do
      let ms ← (← sm.getItem k3).pyIter
      ms.foldlM (fun out metric => do
        let n ← metric.getItem "name"
        pure (insert n out)) out) out) out

/-! ### Sample values used to instantiate the theorems -/

/-- A leaf metric entry carrying only a name. -/
def mkMetric (n : String) : PyVal := PyVal.dict [("name", PyVal.str n)]

/-- A scope-metrics dict with three named metrics. -/
def sampleScope : PyVal :=
  PyVal.dict [("metrics",
    PyVal.list [mkMetric "m1", mkMetric "m2", mkMetric "m3"])]

/-- A resource-metrics dict with two scopes. -/
def sampleResource : PyVal :=
  PyVal.dict [("scopeMetrics", PyVal.list [sampleScope, sampleScope])]

/-- A metric message with 2 resourceMetrics x 2 scopeMetrics x 3 metrics. -/
def sampleMetricMsg : PyVal :=
  PyVal.dict [("resourceMetrics", PyVal.list [sampleResource, sampleResource])]

/-- A collection holding the single 12-leaf metric message. -/
def sampleMetricTelemetry : Telemetry :=
  Telemetry.init none (some [⟨sampleMetricMsg, [], 5⟩]) none

/-- A metric message whose single metric is named "latency". -/
def latencyMsg : PyVal :=
  PyVal.dict [("resourceMetrics", PyVal.list [
    PyVal.dict [("scopeMetrics", PyVal.list [
      PyVal.dict [("metrics", PyVal.list [mkMetric "latency"])]])]])]

/-- Two metric records both containing a metric named "latency". -/
def latencyTelemetry : Telemetry :=
  Telemetry.init none (some [⟨latencyMsg, [], 1⟩, ⟨latencyMsg, [], 2⟩]) none

/-- A collection with one malformed metric record and one malformed trace
record (both messages are empty dicts, missing the level-1 key). -/
def malformedTelemetry : Telemetry :=
  Telemetry.init none (some [⟨PyVal.dict [], [], 1⟩])
    (some [⟨PyVal.dict [], [], 2⟩])

/-- A collection with one empty log record, exercising the no-metrics /
no-traces queries. -/
def logOnlyTelemetry : Telemetry :=
  Telemetry.init (some [⟨PyVal.dict [], [], 1⟩]) none none

/-! ## Theorems -/

/-- If some element of `xs` sends every accumulator to `none`, the whole
`Option`-valued left fold is `none` — a structural-access error anywhere in
the traversal propagates and no partial value is produced. -/
theorem foldlM_none_of_mem {α β : Type} {f : β → α → Option β} {xs : List α}
    {x : α} (hx : x ∈ xs) (hf : ∀ b, f b x = none) :
    ∀ b, xs.foldlM f b = none := by
  induction xs with
  | nil => cases hx
  | cons y ys ih =>
    intro b
    rcases List.mem_cons.mp hx with h | h
    · subst h
      simp [List.foldlM_cons, hf b]
    · cases hy : f b y with
      | none => simp [List.foldlM_cons, hy]
      | some b2 => simp [List.foldlM_cons, hy, ih h]

/-- An `Option`-valued fold each of whose steps adds a fixed per-element
amount to the accumulator computes the accumulated sum. -/
theorem foldlM_add_sum {α : Type} (f : Nat → α → Option Nat) (g : α → Nat)
    {xs : List α} (h : ∀ x ∈ xs, ∀ b, f b x = some (b + g x)) :
    ∀ b, xs.foldlM f b = some (b + (xs.map g).sum) := by
  induction xs with
  | nil => intro b; simp
  | cons y ys ih =>
    intro b
    rw [List.foldlM_cons, h y (List.mem_cons_self y ys) b]
    show ys.foldlM f (b + g y) = _
    rw [ih (fun x hx b2 => h x (List.mem_cons_of_mem _ hx) b2)]
    simp [Nat.add_assoc]

/-- An `Option`-valued fold each of whose steps unions a fixed per-element
finite set into the accumulator computes the union. -/
theorem foldlM_union_flat {α : Type}
    (f : Finset PyVal → α → Option (Finset PyVal)) (g : α → List PyVal)
    {xs : List α} (h : ∀ x ∈ xs, ∀ s, f s x = some ((g x).toFinset ∪ s)) :
    ∀ s, xs.foldlM f s = some ((xs.flatMap g).toFinset ∪ s) := by
  induction xs with
  | nil => intro s; simp
  | cons y ys ih =>
    intro s
    rw [List.foldlM_cons, h y (List.mem_cons_self y ys) s]
    show ys.foldlM f ((g y).toFinset ∪ s) = _
    rw [ih (fun x hx s2 => h x (List.mem_cons_of_mem _ hx) s2)]
    rw [List.flatMap_cons, List.toFinset_append, Finset.union_assoc,
      Finset.union_left_comm]

/-- The innermost counting step on a conforming scope dict yields the length
of its leaf list. -/
theorem smFold_ok {k3 : String} {sm : PyVal} (h : smOk k3 sm = true)
    (out : Nat) :
    (do
      let n ← (← sm.getItem k3).pyLen
      pure (out + n) : Option Nat) = some (out + smLen k3 sm) := by
  unfold smOk at h
  unfold smLen
  split at h
  · next ms hg => simp [hg, PyVal.pyLen]
  · next => cases h

/-- The middle counting loop on a conforming resource dict yields the sum of
the leaf-list lengths of its scopes. -/
theorem rmFold_ok {k2 k3 : String} {rm : PyVal} (h : rmOk k2 k3 rm = true)
    (out : Nat) :
    (do
      let sms ← (← rm.getItem k2).pyIter
      sms.foldlM (fun out sm => do
        let n ← (← sm.getItem k3).pyLen
        pure (out + n)) out : Option Nat) = some (out + rmLen k2 k3 rm) := by
  unfold rmOk at h
  unfold rmLen
  split at h
  · next sms hg =>
    have hall : ∀ sm ∈ sms, smOk k3 sm = true := List.all_eq_true.mp h
    rw [hg]
    show sms.foldlM _ out = _
    rw [foldlM_add_sum _ (smLen k3) (fun sm hsm b => smFold_ok (hall sm hsm) b)
      out]
  · next => cases h

/-- The counting fold of one conforming message adds exactly its leaf count. -/
theorem msgPointFold_conform {k1 k2 k3 : String} {m : PyVal}
    (h : msgConforms k1 k2 k3 m = true) (out : Nat) :
    msgPointFold k1 k2 k3 m out = some (out + msgLeafCount k1 k2 k3 m) := by
  unfold msgConforms at h
  unfold msgPointFold msgLeafCount
  split at h
  · next rms hg =>
    have hall : ∀ rm ∈ rms, rmOk k2 k3 rm = true := List.all_eq_true.mp h
    rw [hg]
    show rms.foldlM _ out = _
    rw [foldlM_add_sum _ (rmLen k2 k3)
      (fun rm hrm b => rmFold_ok (hall rm hrm) b) out]
  · next => cases h

/-- The innermost name-collecting loop on a conforming scope dict unions in
the names of its leaf entries. -/
theorem smNamesFold_ok {k3 : String} {sm : PyVal} (h : smOkNamed k3 sm = true)
    (out : Finset PyVal) :
    (do
      let ms ← (← sm.getItem k3).pyIter
      ms.foldlM (fun out metric => do
        let n ← metric.getItem "name"
        pure (insert n out)) out : Option (Finset PyVal)) =
      some ((smNames k3 sm).toFinset ∪ out) := by
  unfold smOkNamed at h
  unfold smNames
  split at h
  · next ms hg =>
    have hall : ∀ metric ∈ ms, (metric.getItem "name").isSome :=
      List.all_eq_true.mp h
    rw [hg]
    show ms.foldlM _ out = _
    rw [foldlM_union_flat _ (fun metric => (metric.getItem "name").toList)
      (fun metric hm s => ?_) out]
    obtain ⟨nm, hnm⟩ := Option.isSome_iff_exists.mp (hall metric hm)
    simp [hnm, Finset.insert_eq]
  · next => cases h

/-- The middle name-collecting loop on a conforming resource dict unions in
the names below it. -/
theorem rmNamesFold_ok {k2 k3 : String} {rm : PyVal}
    (h : rmOkNamed k2 k3 rm = true) (out : Finset PyVal) :
    (do
      let sms ← (← rm.getItem k2).pyIter
      sms.foldlM (fun out sm => do
        let ms ← (← sm.getItem k3).pyIter
        ms.foldlM (fun out metric => do
          let n ← metric.getItem "name"
          pure (insert n out)) out) out : Option (Finset PyVal)) =
      some ((rmNames k2 k3 rm).toFinset ∪ out) := by
  unfold rmOkNamed at h
  unfold rmNames
  split at h
  · next sms hg =>
    have hall : ∀ sm ∈ sms, smOkNamed k3 sm = true := List.all_eq_true.mp h
    rw [hg]
    show sms.foldlM _ out = _
    rw [foldlM_union_flat _ (smNames k3)
      (fun sm hsm s => smNamesFold_ok (hall sm hsm) s) out]
  · next => cases h

/-- The name fold of one conforming message unions in exactly its name list. -/
theorem msgNamesFold_conform {k1 k2 k3 : String} {m : PyVal}
    (h : msgConformsNamed k1 k2 k3 m = true) (out : Finset PyVal) :
    msgNamesFold k1 k2 k3 m out =
      some ((msgNameList k1 k2 k3 m).toFinset ∪ out) := by
  unfold msgConformsNamed at h
  unfold msgNamesFold msgNameList
  split at h
  · next rms hg =>
    have hall : ∀ rm ∈ rms, rmOkNamed k2 k3 rm = true := List.all_eq_true.mp h
    rw [hg]
    show rms.foldlM _ out = _
    rw [foldlM_union_flat _ (rmNames k2 k3)
      (fun rm hrm s => rmNamesFold_ok (hall rm hrm) s) out]
  · next => cases h

/-- C1: for a collection whose metric records all conform to the nested
schema, `num_metrics` returns the sum over all metric records of the lengths
of the innermost `metrics` sequences reached by the
`resourceMetrics -> scopeMetrics -> metrics` traversal. -/
theorem num_metrics_of_conforming (t : Telemetry)
    (h : ∀ req ∈ t.metric_requests,
      msgConforms "resourceMetrics" "scopeMetrics" "metrics" req.message
        = true) :
    t.num_metrics = some ((t.metric_requests.map (fun req =>
      msgLeafCount "resourceMetrics" "scopeMetrics" "metrics"
        req.message)).sum) := by
  have hrfl : t.num_metrics = t.metric_requests.foldlM (fun out req =>
      msgPointFold "resourceMetrics" "scopeMetrics" "metrics" req.message out)
      0 := rfl
  rw [hrfl, foldlM_add_sum _ (fun req =>
      msgLeafCount "resourceMetrics" "scopeMetrics" "metrics" req.message)
    (fun req hreq b => msgPointFold_conform (h req hreq) b) 0]
  rw [Nat.zero_add]

/-- C1 witness: a single metric record with 2 resourceMetrics, each with
2 scopeMetrics, each with 3 metrics, yields `num_metrics = 12`. -/
theorem num_metrics_of_conforming_checked :
    (∀ req ∈ sampleMetricTelemetry.metric_requests,
      msgConforms "resourceMetrics" "scopeMetrics" "metrics" req.message
        = true) ∧
    sampleMetricTelemetry.num_metrics = some 12 := by
  refine ⟨by decide, ?_⟩
  rw [num_metrics_of_conforming sampleMetricTelemetry (by decide)]
  decide

/-- C2: `has_trace_header key expected` is true exactly when some trace
record maps `key` to `expected` in its headers; in particular an absent key, a
different value, or an empty collection give `false`. -/
theorem has_trace_header_iff_exists (t : Telemetry) (key expected : String) :
    t.has_trace_header key expected = true ↔
      ∃ req ∈ t.trace_requests, req.get_header key = some expected := by
  unfold Telemetry.has_trace_header
  simp only [List.any_eq_true, beq_iff_eq]
  constructor <;> (rintro ⟨req, hreq, hp⟩; exact ⟨req, hreq, hp.symm⟩)

/-- C3: for a collection whose metric records all conform to the nested
schema (with named leaf entries), `metric_names` returns the set containing
exactly the `name` values of the metric entries reached by the traversal,
with duplicates collapsed. -/
theorem metric_names_of_conforming (t : Telemetry)
    (h : ∀ req ∈ t.metric_requests,
      msgConformsNamed "resourceMetrics" "scopeMetrics" "metrics" req.message
        = true) :
    ∃ s, t.metric_names = some s ∧
      ∀ n, n ∈ s ↔ ∃ req ∈ t.metric_requests,
        n ∈ msgNameList "resourceMetrics" "scopeMetrics" "metrics"
          req.message := by
  have hrfl : t.metric_names = t.metric_requests.foldlM (fun out req =>
      msgNamesFold "resourceMetrics" "scopeMetrics" "metrics" req.message out)
      ∅ := rfl
  refine ⟨(t.metric_requests.flatMap (fun req =>
    msgNameList "resourceMetrics" "scopeMetrics" "metrics"
      req.message)).toFinset, ?_, ?_⟩
  · rw [hrfl, foldlM_union_flat _ _
      (fun req hreq s => msgNamesFold_conform (h req hreq) s) ∅]
    simp
  · intro n
    simp [List.mem_flatMap]

/-- C3 witness: two metric records both containing a metric named "latency"
yield the singleton set containing the one name. -/
theorem metric_names_of_conforming_checked :
    (∀ req ∈ latencyTelemetry.metric_requests,
      msgConformsNamed "resourceMetrics" "scopeMetrics" "metrics" req.message
        = true) ∧
    latencyTelemetry.metric_names = some {PyVal.str "latency"} ∧
    (∃ s, latencyTelemetry.metric_names = some s ∧
      ∀ n, n ∈ s ↔ ∃ req ∈ latencyTelemetry.metric_requests,
        n ∈ msgNameList "resourceMetrics" "scopeMetrics" "metrics"
          req.message) :=
  ⟨by decide, by decide,
    metric_names_of_conforming latencyTelemetry (by decide)⟩

/-- Embedding headers as a `PyVal` dict and reading them back is lossless. -/
theorem asHeaders_headersVal (hs : List (String × String)) :
    (headersVal hs).asHeaders = some hs := by
  unfold headersVal PyVal.asHeaders
  induction hs with
  | nil => rfl
  | cons kv tl ih =>
    simp only [List.map_cons, List.mapM_cons] at ih ⊢
    simp_all

/-- A Record survives the structured-form round trip. -/
theorem from_dict_to_dict (r : Request) :
    Request.from_dict r.to_dict = some r := by
  have h1 : r.to_dict.getItem "request" = some r.message := rfl
  have h2 : r.to_dict.getItem "headers" = some (headersVal r.headers) := rfl
  have h3 : r.to_dict.getItem "test_elapsed_ms"
      = some (PyVal.int r.test_elapsed_ms) := rfl
  unfold Request.from_dict
  rw [h1, h2, h3]
  simp [asHeaders_headersVal, PyVal.asInt]

/-- A list of Records survives the structured-form round trip. -/
theorem mapM_from_dict_to_dict (reqs : List Request) :
    (reqs.map Request.to_dict).mapM Request.from_dict = some reqs := by
  induction reqs with
  | nil => rfl
  | cons r tl ih =>
    rw [List.map_cons, List.mapM_cons, from_dict_to_dict, ih]
    rfl

/-- C4: rebuilding a collection from the record fields of `to_dict` yields a
collection with the same `num_metrics`, `num_spans` and `metric_names`. -/
theorem roundtrip_preserves_queries (t : Telemetry) :
    ∃ t2, Telemetry.from_dict t.to_dict = some t2 ∧
      t2.num_metrics = t.num_metrics ∧ t2.num_spans = t.num_spans ∧
      t2.metric_names = t.metric_names := by
  refine ⟨t, ?_, rfl, rfl, rfl⟩
  show ((t.log_requests.map Request.to_dict).mapM Request.from_dict
      >>= fun ls =>
        (t.metric_requests.map Request.to_dict).mapM Request.from_dict
      >>= fun ms =>
        (t.trace_requests.map Request.to_dict).mapM Request.from_dict
      >>= fun ts =>
        pure (Telemetry.init (some ls) (some ms) (some ts))) = some t
  rw [mapM_from_dict_to_dict, mapM_from_dict_to_dict, mapM_from_dict_to_dict]
  rfl

/-- The innermost counting step on a dict missing `k3` raises. -/
theorem smFold_missing {k3 : String} {sm : PyVal} (h : smMissing k3 sm = true)
    (out : Nat) :
    (do
      let n ← (← sm.getItem k3).pyLen
      pure (out + n) : Option Nat) = none := by
  unfold smMissing at h
  split at h
  · next kvs =>
    have hlk : kvs.lookup k3 = none := Option.isNone_iff_eq_none.mp h
    simp [PyVal.getItem, hlk]
  · next => cases h

/-- The innermost name-collecting loop on a dict missing `k3` raises. -/
theorem smNamesFold_missing {k3 : String} {sm : PyVal}
    (h : smMissing k3 sm = true) (out : Finset PyVal) :
    (do
      let ms ← (← sm.getItem k3).pyIter
      ms.foldlM (fun out metric => do
        let n ← metric.getItem "name"
        pure (insert n out)) out : Option (Finset PyVal)) = none := by
  unfold smMissing at h
  split at h
  · next kvs =>
    have hlk : kvs.lookup k3 = none := Option.isNone_iff_eq_none.mp h
    simp [PyVal.getItem, hlk]
  · next => cases h

/-- The middle counting loop raises when the traversal below `rm` reaches a
dict missing its key. -/
theorem rmFold_missing {k2 k3 : String} {rm : PyVal}
    (h : rmMissing k2 k3 rm = true) (out : Nat) :
    (do
      let sms ← (← rm.getItem k2).pyIter
      sms.foldlM (fun out sm => do
        let n ← (← sm.getItem k3).pyLen
        pure (out + n)) out : Option Nat) = none := by
  unfold rmMissing at h
  split at h
  · next kvs =>
    split at h
    · next hlk => simp [PyVal.getItem, hlk]
    · next v hlk =>
      split at h
      · next => cases h
      · next sms hit =>
        obtain ⟨sm, hsm, hmiss⟩ := List.any_eq_true.mp h
        have hg : (PyVal.dict kvs).getItem k2 = some v := hlk
        simp only [hg, hit, Option.bind_eq_bind, Option.some_bind]
        refine foldlM_none_of_mem hsm (fun b => ?_) out
        exact smFold_missing hmiss b
  · next => cases h

/-- The middle name-collecting loop raises when the traversal below `rm`
reaches a dict missing its key. -/
theorem rmNamesFold_missing {k2 k3 : String} {rm : PyVal}
    (h : rmMissing k2 k3 rm = true) (out : Finset PyVal) :
    (do
      let sms ← (← rm.getItem k2).pyIter
      sms.foldlM (fun out sm => do
        let ms ← (← sm.getItem k3).pyIter
        ms.foldlM (fun out metric => do
          let n ← metric.getItem "name"
          pure (insert n out)) out) out : Option (Finset PyVal)) = none := by
  unfold rmMissing at h
  split at h
  · next kvs =>
    split at h
    · next hlk => simp [PyVal.getItem, hlk]
    · next v hlk =>
      split at h
      · next => cases h
      · next sms hit =>
        obtain ⟨sm, hsm, hmiss⟩ := List.any_eq_true.mp h
        have hg : (PyVal.dict kvs).getItem k2 = some v := hlk
        simp only [hg, hit, Option.bind_eq_bind, Option.some_bind]
        refine foldlM_none_of_mem hsm (fun s2 => ?_) out
        exact smNamesFold_missing hmiss s2
  · next => cases h

/-- The counting fold of a message raises when its traversal reaches a dict
missing its key. -/
theorem msgPointFold_missing {k1 k2 k3 : String} {m : PyVal}
    (h : msgMissingKey k1 k2 k3 m = true) (out : Nat) :
    msgPointFold k1 k2 k3 m out = none := by
  unfold msgMissingKey at h
  unfold msgPointFold
  split at h
  · next kvs =>
    split at h
    · next hlk => simp [PyVal.getItem, hlk]
    · next v hlk =>
      split at h
      · next => cases h
      · next rms hit =>
        obtain ⟨rm, hrm, hmiss⟩ := List.any_eq_true.mp h
        have hg : (PyVal.dict kvs).getItem k1 = some v := hlk
        simp only [hg, hit, Option.bind_eq_bind, Option.some_bind]
        refine foldlM_none_of_mem hrm (fun b => ?_) out
        exact rmFold_missing hmiss b
  · next => cases h

/-- The name fold of a message raises when its traversal reaches a dict missing
its key. -/
theorem msgNamesFold_missing {k1 k2 k3 : String} {m : PyVal}
    (h : msgMissingKey k1 k2 k3 m = true) (out : Finset PyVal) :
    msgNamesFold k1 k2 k3 m out = none := by
  unfold msgMissingKey at h
  unfold msgNamesFold
  split at h
  · next kvs =>
    split at h
    · next hlk => simp [PyVal.getItem, hlk]
    · next v hlk =>
      split at h
      · next => cases h
      · next rms hit =>
        obtain ⟨rm, hrm, hmiss⟩ := List.any_eq_true.mp h
        have hg : (PyVal.dict kvs).getItem k1 = some v := hlk
        simp only [hg, hit, Option.bind_eq_bind, Option.some_bind]
        refine foldlM_none_of_mem hrm (fun s2 => ?_) out
        exact rmNamesFold_missing hmiss s2
  · next => cases h

/-- C5: a metric record whose message has a missing key at a traversed level
makes `num_metrics` and `metric_names` fail with a propagated error
(`none`), and a trace record with a missing key at a traversed level makes
`num_spans` fail; no partial or undercounted result is returned. -/
theorem malformed_record_queries_fail (t : Telemetry) (req : Request) :
    (req ∈ t.metric_requests →
      msgMissingKey "resourceMetrics" "scopeMetrics" "metrics" req.message
        = true →
      t.num_metrics = none ∧ t.metric_names = none) ∧
    (req ∈ t.trace_requests →
      msgMissingKey "resourceSpans" "scopeSpans" "spans" req.message = true →
      t.num_spans = none) := by
  constructor
  · intro hreq hmiss
    constructor
    · have hrfl : t.num_metrics = t.metric_requests.foldlM (fun out req =>
          msgPointFold "resourceMetrics" "scopeMetrics" "metrics"
            req.message out) 0 := rfl
      rw [hrfl]
      refine foldlM_none_of_mem hreq (fun b => ?_) 0
      exact msgPointFold_missing hmiss b
    · have hrfl : t.metric_names = t.metric_requests.foldlM (fun out req =>
          msgNamesFold "resourceMetrics" "scopeMetrics" "metrics"
            req.message out) ∅ := rfl
      rw [hrfl]
      refine foldlM_none_of_mem hreq (fun s => ?_) ∅
      exact msgNamesFold_missing hmiss s
  · intro hreq hmiss
    have hrfl : t.num_spans = t.trace_requests.foldlM (fun out req =>
        msgPointFold "resourceSpans" "scopeSpans" "spans" req.message out)
        0 := rfl
    rw [hrfl]
    refine foldlM_none_of_mem hreq (fun b => ?_) 0
    exact msgPointFold_missing hmiss b

/-- C5 witness: a collection with a metric record and a trace record whose
messages are empty dicts (level-1 key missing) has all three queries fail. -/
theorem malformed_record_queries_fail_checked :
    ((⟨PyVal.dict [], [], 1⟩ : Request) ∈ malformedTelemetry.metric_requests ∧
      msgMissingKey "resourceMetrics" "scopeMetrics" "metrics"
        (PyVal.dict []) = true ∧
      (⟨PyVal.dict [], [], 2⟩ : Request) ∈ malformedTelemetry.trace_requests ∧
      msgMissingKey "resourceSpans" "scopeSpans" "spans" (PyVal.dict [])
        = true) ∧
    malformedTelemetry.num_metrics = none ∧
    malformedTelemetry.metric_names = none ∧
    malformedTelemetry.num_spans = none := by
  refine ⟨by decide, ?_, ?_, ?_⟩
  · exact ((malformed_record_queries_fail malformedTelemetry
      ⟨PyVal.dict [], [], 1⟩).1 (by decide) (by decide)).1
  · exact ((malformed_record_queries_fail malformedTelemetry
      ⟨PyVal.dict [], [], 1⟩).1 (by decide) (by decide)).2
  · exact (malformed_record_queries_fail malformedTelemetry
      ⟨PyVal.dict [], [], 2⟩).2 (by decide) (by decide)

/-- Replaying ops appends log records to the log sequence. -/
theorem applyOps_log (ops : List SinkOp) : ∀ t : Telemetry,
    (t.applyOps ops).log_requests
      = t.log_requests ++ ops.filterMap SinkOp.logRecord := by
  induction ops with
  | nil => intro t; simp [Telemetry.applyOps]
  | cons op tl ih =>
    intro t
    show ((t.applyOp op).applyOps tl).log_requests = _
    rw [ih]
    cases op <;> simp [Telemetry.applyOp, Telemetry.add_log,
      Telemetry.add_metric, Telemetry.add_trace, SinkOp.logRecord,
      List.filterMap_cons]

/-- Replaying ops appends metric records to the metric sequence. -/
theorem applyOps_metric (ops : List SinkOp) : ∀ t : Telemetry,
    (t.applyOps ops).metric_requests
      = t.metric_requests ++ ops.filterMap SinkOp.metricRecord := by
  induction ops with
  | nil => intro t; simp [Telemetry.applyOps]
  | cons op tl ih =>
    intro t
    show ((t.applyOp op).applyOps tl).metric_requests = _
    rw [ih]
    cases op <;> simp [Telemetry.applyOp, Telemetry.add_log,
      Telemetry.add_metric, Telemetry.add_trace, SinkOp.metricRecord,
      List.filterMap_cons]

/-- Replaying ops appends trace records to the trace sequence. -/
theorem applyOps_trace (ops : List SinkOp) : ∀ t : Telemetry,
    (t.applyOps ops).trace_requests
      = t.trace_requests ++ ops.filterMap SinkOp.traceRecord := by
  induction ops with
  | nil => intro t; simp [Telemetry.applyOps]
  | cons op tl ih =>
    intro t
    show ((t.applyOp op).applyOps tl).trace_requests = _
    rw [ih]
    cases op <;> simp [Telemetry.applyOp, Telemetry.add_log,
      Telemetry.add_metric, Telemetry.add_trace, SinkOp.traceRecord,
      List.filterMap_cons]

/-- C6: replaying any sequence of add_log/add_metric/add_trace calls against
a freshly constructed collection leaves the sequence of each signal kind holding
exactly the records appended to it, in arrival order, unmodified. -/
theorem appended_records_in_order (ops : List SinkOp) :
    ((Telemetry.init none none none).applyOps ops).log_requests
      = ops.filterMap SinkOp.logRecord ∧
    ((Telemetry.init none none none).applyOps ops).metric_requests
      = ops.filterMap SinkOp.metricRecord ∧
    ((Telemetry.init none none none).applyOps ops).get_trace_requests
      = ops.filterMap SinkOp.traceRecord := by
  refine ⟨?_, ?_, ?_⟩
  · rw [applyOps_log]; rfl
  · rw [applyOps_metric]; rfl
  · show ((Telemetry.init none none none).applyOps ops).trace_requests = _
    rw [applyOps_trace]; rfl

/-- C7: the structured form of a Record has exactly the three top-level keys
`request`, `headers` and `test_elapsed_ms`, in that order, mapped to the
message, the headers and the elapsed milliseconds. -/
theorem record_to_dict_shape (r : Request) :
    r.to_dict.topKeys = ["request", "headers", "test_elapsed_ms"] ∧
    r.to_dict.getItem "request" = some r.message ∧
    r.to_dict.getItem "headers" = some (headersVal r.headers) ∧
    r.to_dict.getItem "test_elapsed_ms" = some (PyVal.int r.test_elapsed_ms) :=
  ⟨rfl, rfl, rfl, rfl⟩

/-- Association-list lookup misses exactly the absent keys. -/
theorem lookup_eq_none_iff (hs : List (String × String)) (name : String) :
    hs.lookup name = none ↔ name ∉ hs.map Prod.fst := by
  induction hs with
  | nil => simp
  | cons kv tl ih =>
    obtain ⟨k, v⟩ := kv
    rw [List.map_cons, List.mem_cons, List.lookup]
    by_cases hk : name = k
    · subst hk
      simp
    · have hkb : (name == k) = false := beq_eq_false_iff_ne.mpr hk
      rw [hkb]
      simp [ih, hk]

/-- Association-list lookup returns a pair present in the list. -/
theorem lookup_mem {hs : List (String × String)} {name v : String}
    (h : hs.lookup name = some v) : (name, v) ∈ hs := by
  induction hs with
  | nil => cases h
  | cons kv tl ih =>
    obtain ⟨k, w⟩ := kv
    rw [List.lookup] at h
    by_cases hk : name = k
    · subst hk
      rw [beq_self_eq_true] at h
      simp only [Option.some.injEq] at h
      simp [h]
    · have hkb : (name == k) = false := beq_eq_false_iff_ne.mpr hk
      rw [hkb] at h
      exact List.mem_cons_of_mem _ (ih h)

/-- C8: `get_header` totally computes a case-sensitive lookup: it returns the
explicit absence marker `none` exactly when the name is not among the header
keys, and any returned value is the header entry for that exact name. -/
theorem get_header_lookup (r : Request) (name : String) :
    (r.get_header name = none ↔ name ∉ r.headers.map Prod.fst) ∧
    (∀ v, r.get_header name = some v → (name, v) ∈ r.headers) :=
  ⟨lookup_eq_none_iff r.headers name, fun _ h => lookup_mem h⟩

/-- C8 witness: lookup is case-sensitive and absence yields `none`. -/
theorem get_header_lookup_checked :
    ((Request.mk (PyVal.dict []) [("X-Test", "abc")] 0).get_header "x-test"
        = none ↔
      "x-test" ∉ ([("X-Test", "abc")] : List (String × String)).map
        Prod.fst) ∧
    (∀ v, (Request.mk (PyVal.dict []) [("X-Test", "abc")] 0).get_header
        "x-test" = some v →
      ("x-test", v) ∈ ([("X-Test", "abc")] : List (String × String))) :=
  get_header_lookup (Request.mk (PyVal.dict []) [("X-Test", "abc")] 0) "x-test"

/-- C10: with no metric records and no trace records, `num_metrics` is
`some 0`, `num_spans` is `some 0`, `metric_names` is the empty set, and
`has_trace_header` is false for every key and value — no structural-access
error is reachable. -/
theorem empty_collection_queries (t : Telemetry)
    (hm : t.metric_requests = []) (ht : t.trace_requests = []) :
    t.num_metrics = some 0 ∧ t.num_spans = some 0 ∧
    t.metric_names = some ∅ ∧
    ∀ key expected, t.has_trace_header key expected = false := by
  refine ⟨?_, ?_, ?_, fun key expected => ?_⟩ <;>
    simp [Telemetry.num_metrics, Telemetry.num_spans, Telemetry.metric_names,
      Telemetry.has_trace_header, hm, ht]

/-- C10 witness: a collection holding only a log record answers all four
queries without error. -/
theorem empty_collection_queries_checked :
    (logOnlyTelemetry.metric_requests = [] ∧
      logOnlyTelemetry.trace_requests = []) ∧
    logOnlyTelemetry.num_metrics = some 0 ∧
    logOnlyTelemetry.num_spans = some 0 ∧
    logOnlyTelemetry.metric_names = some ∅ ∧
    ∀ key expected, logOnlyTelemetry.has_trace_header key expected = false :=
  ⟨⟨rfl, rfl⟩, empty_collection_queries logOnlyTelemetry rfl rfl⟩

end Otel
